import Mathlib

/-!
Shallow embedding of the feature-flag evaluation core of launch-darkly-lite
(domain entity FeatureFlag: condition/rule evaluation, flag evaluation,
validation, and the whole-field update operation), together with the
evaluation use case that derives the reason string.

Modelling conventions:
- JavaScript runtime values appearing in dynamically checked positions are
  modelled by the inductive JSValue (undefined, string, number, boolean,
  array).  Numbers are modelled as Int: the source only compares them and
  the claims involve no floating-point rounding.
- Strict equality (the JS triple-equals) on two array values is reference
  equality; condition values and context values originate from different
  objects, so it is modelled as false.
- Date values are modelled as integer timestamps; the current clock is an
  explicit parameter now, since the source reads it with new Date().
- Effect-typed validation results are modelled with Except String.
-/

namespace LD

/-- Runtime JavaScript value, as seen by the dynamically checked parts of
the source (condition values typed any, untrusted rule fields). -/
inductive JSValue
  | undef
  | str (s : String)
  | num (n : Int)
  | bool (b : Bool)
  | arr (xs : List JSValue)

/-- True when the value is the undefined marker. -/
def JSValue.isUndef : JSValue → Bool
  | JSValue.undef => true
  | _ => false

/-- True when typeof v is string. -/
def JSValue.isStr : JSValue → Bool
  | JSValue.str _ => true
  | _ => false

/-- True when typeof v is number. -/
def JSValue.isNum : JSValue → Bool
  | JSValue.num _ => true
  | _ => false

/-- True when typeof v is boolean. -/
def JSValue.isBool : JSValue → Bool
  | JSValue.bool _ => true
  | _ => false

/-- True when Array.isArray(v). -/
def JSValue.isArr : JSValue → Bool
  | JSValue.arr _ => true
  | _ => false

/-- Strict equality of runtime values (the JS triple-equals).  Two array
values are distinct object references here, hence not equal. -/
def jsEq : JSValue → JSValue → Bool
  | JSValue.undef, JSValue.undef => true
  | JSValue.str a, JSValue.str b => a == b
  | JSValue.num a, JSValue.num b => a == b
  | JSValue.bool a, JSValue.bool b => a == b
  | _, _ => false

/-- Array.prototype.includes, modelled with strict equality (SameValueZero
and the triple-equals agree on the values representable here). -/
def jsIncludes (xs : List JSValue) (v : JSValue) : Bool :=
  xs.any (fun e => jsEq e v)

/-- The first list is a leading segment of the second. -/
def charsStartWith : List Char → List Char → Bool
  | [], _ => true
  | _ :: _, [] => false
  | a :: as, b :: bs => a == b && charsStartWith as bs

/-- The first list occurs as a contiguous segment of the second. -/
def charsContain (needle : List Char) : List Char → Bool
  | [] => needle.isEmpty
  | b :: bs => charsStartWith needle (b :: bs) || charsContain needle bs

/-- String.prototype.includes: substring test. -/
def strIncludes (hay sub : String) : Bool :=
  charsContain sub.toList hay.toList

/-- ConditionOperator enum of Api.types.ts. -/
inductive ConditionOperator
  | equals
  | not_equals
  | contains
  | not_contains
  | greater_than
  | less_than
  | in_op
  | not_in
deriving DecidableEq

/-- The string literal backing each ConditionOperator enum member. -/
def ConditionOperator.toStr : ConditionOperator → String
  | ConditionOperator.equals => "equals"
  | ConditionOperator.not_equals => "not_equals"
  | ConditionOperator.contains => "contains"
  | ConditionOperator.not_contains => "not_contains"
  | ConditionOperator.greater_than => "greater_than"
  | ConditionOperator.less_than => "less_than"
  | ConditionOperator.in_op => "in"
  | ConditionOperator.not_in => "not_in"

/-- EvaluationContext of FeatureFlag.entity.ts.  UserRole is a string enum
and is modelled as a string. -/
structure EvaluationContext where
  userId : Option String
  userEmail : Option String
  userRole : Option String
  attributes : Option (List (String × JSValue))

/-- FlagCondition of Api.types.ts: one field/operator/value predicate.
The condition value is typed loosely in the source (string, number,
boolean at the type level, arrays at runtime for membership operators). -/
structure FlagCondition where
  field : String
  operator : ConditionOperator
  value : JSValue

/-- FlagRule of Api.types.ts, in its statically typed view used by the
evaluation engine. -/
structure FlagRule where
  id : String
  type : String
  conditions : List FlagCondition
  value : Bool
  priority : Int

/-- FeatureFlagEntity of FeatureFlag.entity.ts. -/
structure FeatureFlagEntity where
  id : String
  key : String
  name : String
  description : String
  enabled : Bool
  defaultValue : Bool
  rules : List FlagRule
  createdBy : String
  createdAt : Int
  updatedAt : Int
  expiresAt : Option Int

/-- Factory function createFeatureFlagEntity. -/
def createFeatureFlagEntity (id key name description : String)
    (enabled defaultValue : Bool) (rules : List FlagRule) (createdBy : String)
    (createdAt updatedAt : Int) (expiresAt : Option Int) : FeatureFlagEntity :=
  ⟨id, key, name, description, enabled, defaultValue, rules, createdBy,
    createdAt, updatedAt, expiresAt⟩

/-- isEnabled of FeatureFlag.entity.ts. -/
def isEnabled (flag : FeatureFlagEntity) : Bool :=
  flag.enabled

/-- isExpired of FeatureFlag.entity.ts: new Date() > flag.expiresAt when
expiresAt is set, false otherwise.  The current clock is the parameter. -/
def isExpired (flag : FeatureFlagEntity) (now : Int) : Bool :=
  match flag.expiresAt with
  | some t => decide (now > t)
  | none => false

/-- canEvaluate of FeatureFlag.entity.ts. -/
def canEvaluate (flag : FeatureFlagEntity) (now : Int) : Bool :=
  isEnabled flag && !isExpired flag now

/-- Lift an optional string context field to a runtime value. -/
def optStr : Option String → JSValue
  | some s => JSValue.str s
  | none => JSValue.undef

/-- The switch on condition.field inside evaluateCondition: resolve the
context value, yielding undefined for absent fields. -/
def resolveField (field : String) (context : EvaluationContext) : JSValue :=
  if field == "userId" then optStr context.userId
  else if field == "userEmail" then optStr context.userEmail
  else if field == "role" then optStr context.userRole
  else
    match context.attributes with
    | none => JSValue.undef
    | some attrs =>
      match attrs.lookup field with
      | some v => v
      | none => JSValue.undef

/-- evaluateCondition of FeatureFlag.entity.ts: the switch on the
operator, with every typeof and Array.isArray guard of the source. -/
def evaluateCondition (condition : FlagCondition) (context : EvaluationContext) : Bool :=
  let contextValue := resolveField condition.field context
  match condition.operator with
  | ConditionOperator.equals => jsEq contextValue condition.value
  | ConditionOperator.not_equals => !jsEq contextValue condition.value
  | ConditionOperator.contains =>
    match contextValue, condition.value with
    | JSValue.str a, JSValue.str b => strIncludes a b
    | _, _ => false
  | ConditionOperator.not_contains =>
    match contextValue, condition.value with
    | JSValue.str a, JSValue.str b => !strIncludes a b
    | _, _ => false
  | ConditionOperator.greater_than =>
    match contextValue, condition.value with
    | JSValue.num a, JSValue.num b => decide (a > b)
    | _, _ => false
  | ConditionOperator.less_than =>
    match contextValue, condition.value with
    | JSValue.num a, JSValue.num b => decide (a < b)
    | _, _ => false
  | ConditionOperator.in_op =>
    match condition.value with
    | JSValue.arr xs => jsIncludes xs contextValue
    | _ => false
  | ConditionOperator.not_in =>
    match condition.value with
    | JSValue.arr xs => !jsIncludes xs contextValue
    | _ => false

/-- evaluateRule of FeatureFlag.entity.ts: every condition must hold. -/
def evaluateRule (rule : FlagRule) (context : EvaluationContext) : Bool :=
  rule.conditions.all (fun condition => evaluateCondition condition context)

/-- Descending priority order used by the sort comparator
(a, b) => b.priority - a.priority: a precedes b when b.priority is at
most a.priority. -/
def rulePriorityGe (a b : FlagRule) : Prop :=
  b.priority ≤ a.priority

instance : DecidableRel rulePriorityGe :=
  fun a b => inferInstanceAs (Decidable (b.priority ≤ a.priority))

instance : IsTotal FlagRule rulePriorityGe :=
  ⟨fun a b => Int.le_total b.priority a.priority⟩

instance : IsTrans FlagRule rulePriorityGe :=
  ⟨fun _ _ _ hab hbc => le_trans hbc hab⟩

/-- The sort [...flag.rules].sort((a, b) => b.priority - a.priority).
Array.prototype.sort is stable, so any stable sort by descending priority
models it; insertionSort with a non-strict total order is stable. -/
def sortRules (rules : List FlagRule) : List FlagRule :=
  rules.insertionSort rulePriorityGe

/-- evaluate of FeatureFlag.entity.ts: default on disabled or expired,
otherwise the value of the first matching rule in sorted order, otherwise
the default value. -/
def evaluate (flag : FeatureFlagEntity) (context : EvaluationContext) (now : Int) : Bool :=
  if !canEvaluate flag now then flag.defaultValue
  else
    match (sortRules flag.rules).find? (fun rule => evaluateRule rule context) with
    | some rule => rule.value
    | none => flag.defaultValue

/-- Response shape toEvaluationResponseDto produces. -/
structure EvaluationResponseDto where
  flagKey : String
  value : Bool
  reason : String

/-- The final step of evaluateFeatureFlagUseCase, after the repository
lookup succeeded: it builds the context from the request (only userId and
attributes are forwarded), calls evaluate, and derives the reason by
comparing the result with the default value. -/
def evaluateFeatureFlagUseCase (flag : FeatureFlagEntity) (userId : Option String)
    (attrs : Option (List (String × JSValue))) (now : Int) : EvaluationResponseDto :=
  let context : EvaluationContext := ⟨userId, none, none, attrs⟩
  let result := evaluate flag context now
  let reason := if result == flag.defaultValue then "default" else "rule_match"
  ⟨flag.key, result, reason⟩

/-- validateKey of FeatureFlag.entity.ts: required (truthy and nonblank
after trim), and every character in the class letters, digits, underscore,
hyphen; returns the trimmed key. -/
def isKeyChar (c : Char) : Bool :=
  c.isAlpha || c.isDigit || c == '_' || c == '-'

/-- validateKey of FeatureFlag.entity.ts. -/
def validateKey (key : String) : Except String String :=
  if key == "" || key.trim == "" then Except.error "Flag key is required"
  else if !(key.toList.all isKeyChar) then
    Except.error "Flag key can only contain letters, numbers, underscores, and hyphens"
  else Except.ok key.trim

/-- validateName of FeatureFlag.entity.ts: required (truthy and nonblank
after trim) and at most 100 characters after trimming; returns the
trimmed name. -/
def validateName (name : String) : Except String String :=
  if name == "" || name.trim == "" then Except.error "Flag name is required"
  else if name.trim.length > 100 then
    Except.error "Flag name cannot exceed 100 characters"
  else Except.ok name.trim

/-- Runtime view of a condition as validateRules inspects it: the field
and operator strings may be empty (falsy) and the value may be the
undefined marker. -/
structure RawCondition where
  field : String
  operator : String
  value : JSValue

/-- Runtime view of a rule as validateRules inspects it: value and
priority carry arbitrary runtime values and conditions may fail the
Array.isArray test (modelled by none). -/
structure RawRule where
  id : String
  type : String
  conditions : Option (List RawCondition)
  value : JSValue
  priority : JSValue

/-- The condition check inside validateRules: field and operator must be
truthy and value must not be strictly equal to undefined. -/
def checkCondition (c : RawCondition) : Except String Unit :=
  if c.field == "" || c.operator == "" || c.value.isUndef then
    Except.error "Each condition must have field, operator, and value"
  else Except.ok ()

/-- The inner for loop of validateRules over the conditions of a rule:
the first failing condition throws. -/
def checkConditions : List RawCondition → Except String Unit
  | [] => Except.ok ()
  | c :: cs =>
    match checkCondition c with
    | Except.error e => Except.error e
    | Except.ok _ => checkConditions cs

/-- The per-rule checks of validateRules: truthy id and type, boolean
value, numeric priority, and conditions passing Array.isArray; then each
condition is checked in order. -/
def checkRule (r : RawRule) : Except String Unit :=
  if r.id == "" || r.type == "" || !r.value.isBool || !r.priority.isNum then
    Except.error "Each rule must have id, type, value, and priority"
  else
    match r.conditions with
    | none => Except.error "Each rule must have conditions array"
    | some cs => checkConditions cs

/-- The outer for loop of validateRules: the first failing rule throws. -/
def checkRules : List RawRule → Except String Unit
  | [] => Except.ok ()
  | r :: rs =>
    match checkRule r with
    | Except.error e => Except.error e
    | Except.ok _ => checkRules rs

/-- validateRules of FeatureFlag.entity.ts.  The source first tests
Array.isArray(rules); the argument here is always a list, so that guard
cannot fire.  On success the input collection is returned unchanged. -/
def validateRules (rules : List RawRule) : Except String (List RawRule) :=
  match checkRules rules with
  | Except.error e => Except.error e
  | Except.ok _ => Except.ok rules

/-- The runtime value of a statically well-typed condition. -/
def toRawCondition (c : FlagCondition) : RawCondition :=
  ⟨c.field, c.operator.toStr, c.value⟩

/-- The runtime value of a statically well-typed rule. -/
def toRawRule (r : FlagRule) : RawRule :=
  ⟨r.id, r.type, some (r.conditions.map toRawCondition),
    JSValue.bool r.value, JSValue.num r.priority⟩

/-- validateRules applied to a statically typed rule collection (as the
update path does): the runtime values it inspects are the images under
toRawRule; on success the typed rules are returned unchanged. -/
def validateRulesTyped (rules : List FlagRule) : Except String (List FlagRule) :=
  match validateRules (rules.map toRawRule) with
  | Except.error e => Except.error e
  | Except.ok _ => Except.ok rules

/-- The updates argument of updateFeatureFlagEntity: absent fields are
none. -/
structure FlagUpdates where
  key : Option String
  name : Option String
  description : Option String
  enabled : Option Bool
  defaultValue : Option Bool
  rules : Option (List FlagRule)
  expiresAt : Option Int

/-- Truthiness of an optional string field: undefined and the empty
string are falsy. -/
def jsTruthyStr : Option String → Bool
  | none => false
  | some s => s != ""

/-- Discard the payload of a validation result. -/
def toUnit (e : Except String α) : Except String Unit :=
  match e with
  | Except.error m => Except.error m
  | Except.ok _ => Except.ok ()

/-- The validations array built by updateFeatureFlagEntity: validateKey
is pushed when updates.key is truthy, validateName when updates.name is
truthy, validateRules when updates.rules is truthy (every array is
truthy, so whenever the field is present). -/
def updateChecks (u : FlagUpdates) : List (Except String Unit) :=
  (if jsTruthyStr u.key then [toUnit (validateKey (u.key.getD ""))] else []) ++
  (if jsTruthyStr u.name then [toUnit (validateName (u.name.getD ""))] else []) ++
  (match u.rules with
    | some rs => [toUnit (validateRulesTyped rs)]
    | none => [])

/-- Effect.all over the validations: the first failure wins. -/
def runChecks : List (Except String Unit) → Except String Unit
  | [] => Except.ok ()
  | c :: cs =>
    match c with
    | Except.error e => Except.error e
    | Except.ok _ => runChecks cs

/-- updateFeatureFlagEntity of FeatureFlag.entity.ts: run the collected
validations, then build the new entity from updates.field ?? flag.field
(nullish coalescing) with updatedAt set to the current clock.  The source
has an early branch for an empty validations array that builds the same
entity, so both branches collapse to this one expression. -/
def updateFeatureFlagEntity (flag : FeatureFlagEntity) (u : FlagUpdates)
    (now : Int) : Except String FeatureFlagEntity :=
  match runChecks (updateChecks u) with
  | Except.error e => Except.error e
  | Except.ok _ =>
    Except.ok (createFeatureFlagEntity flag.id (u.key.getD flag.key)
      (u.name.getD flag.name) (u.description.getD flag.description)
      (u.enabled.getD flag.enabled) (u.defaultValue.getD flag.defaultValue)
      (u.rules.getD flag.rules) flag.createdBy flag.createdAt now
      (match u.expiresAt with | some t => some t | none => flag.expiresAt))

/-- True when a validation result is a success. -/
def isOkE : Except String α → Bool
  | Except.ok _ => true
  | Except.error _ => false

/-- The per-condition acceptance test of validateRules, read off its
boolean guard: field and operator truthy, value not undefined. -/
def condWellFormedB (c : RawCondition) : Bool :=
  !(c.field == "" || c.operator == "" || c.value.isUndef)

/-- The per-rule acceptance test of validateRules, read off its boolean
guards: truthy id and type, boolean value, numeric priority, conditions
passing Array.isArray, every condition accepted. -/
def ruleWellFormedB (r : RawRule) : Bool :=
  !(r.id == "" || r.type == "" || !r.value.isBool || !r.priority.isNum) &&
    (match r.conditions with
      | none => false
      | some cs => cs.all condWellFormedB)

/-- Declarative reading of the condition acceptance test. -/
def condWellFormed (c : RawCondition) : Prop :=
  c.field ≠ "" ∧ c.operator ≠ "" ∧ c.value.isUndef = false

/-- Declarative reading of the rule acceptance test. -/
def ruleWellFormed (r : RawRule) : Prop :=
  r.id ≠ "" ∧ r.type ≠ "" ∧ r.value.isBool = true ∧ r.priority.isNum = true ∧
    ∃ cs, r.conditions = some cs ∧ ∀ c ∈ cs, condWellFormed c

/-! Concrete fixtures used by witnesses and counterexamples. -/

/-- Condition matching userId u1. -/
def condUserIdU1 : FlagCondition :=
  ⟨"userId", ConditionOperator.equals, JSValue.str "u1"⟩

/-- Priority 2 rule targeting u1, value true. -/
def ruleHi : FlagRule := ⟨"rule-hi", "user_id", [condUserIdU1], true, 2⟩

/-- Priority 1 rule targeting u1, value false. -/
def ruleLo : FlagRule := ⟨"rule-lo", "user_id", [condUserIdU1], false, 1⟩

/-- Rule with no conditions: matches every context. -/
def ruleAlways : FlagRule := ⟨"rule-always", "custom_attribute", [], true, 1⟩

/-- First of two tied priority 3 rules, value true. -/
def ruleTieA : FlagRule := ⟨"tie-a", "custom_attribute", [], true, 3⟩

/-- Second of two tied priority 3 rules, value false. -/
def ruleTieB : FlagRule := ⟨"tie-b", "custom_attribute", [], false, 3⟩

/-- Context identifying user u1. -/
def ctxU1 : EvaluationContext := ⟨some "u1", none, none, none⟩

/-- Context with every field absent. -/
def ctxEmpty : EvaluationContext := ⟨none, none, none, none⟩

/-- Enabled flag with the low-priority rule listed first. -/
def flagTwoRules : FeatureFlagEntity :=
  createFeatureFlagEntity "f1" "two-rules" "Two Rules" "" true false
    [ruleLo, ruleHi] "creator" 0 0 none

/-- Same evaluation-relevant fields as flagTwoRules, every other field
different. -/
def flagTwoRulesCopy : FeatureFlagEntity :=
  createFeatureFlagEntity "other-id" "other-key" "Other Name" "other" true false
    [ruleLo, ruleHi] "someone" 42 43 none

/-- Disabled flag carrying an always-matching rule. -/
def flagDisabled : FeatureFlagEntity :=
  createFeatureFlagEntity "f2" "disabled-flag" "Disabled Flag" "" false false
    [ruleAlways] "creator" 0 0 none

/-- Enabled flag expired at time 5, carrying an always-matching rule. -/
def flagExpired : FeatureFlagEntity :=
  createFeatureFlagEntity "f3" "expired-flag" "Expired Flag" "" true false
    [ruleAlways] "creator" 0 0 (some 5)

/-- Enabled flag whose always-matching rule value equals its default. -/
def flagDefaultTrue : FeatureFlagEntity :=
  createFeatureFlagEntity "f4" "default-true" "Default True" "" true true
    [ruleAlways] "creator" 0 0 none

/-- Enabled flag whose always-matching rule value differs from its
default. -/
def flagRuleOn : FeatureFlagEntity :=
  createFeatureFlagEntity "f5" "rule-on" "Rule On" "" true false
    [ruleAlways] "creator" 0 0 none

/-- Enabled flag with two tied rules, tie-a listed first. -/
def flagTie : FeatureFlagEntity :=
  createFeatureFlagEntity "f6" "tie-flag" "Tie Flag" "" true false
    [ruleTieA, ruleTieB] "creator" 0 0 none

/-- Raw rule with an empty conditions array and every other field
acceptable. -/
def rawRuleEmptyConds : RawRule :=
  ⟨"r1", "user_id", some [], JSValue.bool true, JSValue.num 1⟩

/-- Raw rule with one fully populated condition. -/
def rawRuleFull : RawRule :=
  ⟨"r2", "email", some [⟨"userEmail", "contains", JSValue.str "corp.com"⟩],
    JSValue.bool false, JSValue.num 2⟩

/-- Update request replacing the key with the empty string. -/
def updEmptyKey : FlagUpdates := ⟨some "", none, none, none, none, none, none⟩

/-- Condition on an absent attribute with operator not_equals. -/
def condAbsentNe : FlagCondition :=
  ⟨"dept", ConditionOperator.not_equals, JSValue.str "x"⟩

/-- Condition on an absent attribute with operator not_in. -/
def condAbsentNotIn : FlagCondition :=
  ⟨"dept", ConditionOperator.not_in, JSValue.arr [JSValue.str "a"]⟩

/-- Condition on an absent attribute with operator not_contains. -/
def condAbsentNc : FlagCondition :=
  ⟨"dept", ConditionOperator.not_contains, JSValue.str "a"⟩

/-- greater_than condition whose operand is a string. -/
def condGtStr : FlagCondition :=
  ⟨"age", ConditionOperator.greater_than, JSValue.str "x"⟩

/-- contains condition whose operand is a number. -/
def condContainsNum : FlagCondition :=
  ⟨"userEmail", ConditionOperator.contains, JSValue.num 3⟩

/-- in condition whose operand is not an array. -/
def condInScalar : FlagCondition :=
  ⟨"userId", ConditionOperator.in_op, JSValue.str "u1"⟩

/-! Shared helper lemmas. -/

/-- An enabled, unexpired flag passes the eligibility check. -/
theorem canEvaluate_of_enabled_not_expired (flag : FeatureFlagEntity) (now : Int)
    (hen : flag.enabled = true) (hexp : isExpired flag now = false) :
    canEvaluate flag now = true := by
  simp [canEvaluate, isEnabled, hen, hexp]

/-- On an eligible flag, evaluate returns the value of the rule found
first in the sorted scan. -/
theorem evaluate_eq_of_found (flag : FeatureFlagEntity) (context : EvaluationContext)
    (now : Int) (r : FlagRule) (hce : canEvaluate flag now = true)
    (h : (sortRules flag.rules).find? (fun rule => evaluateRule rule context) = some r) :
    evaluate flag context now = r.value := by
  simp [evaluate, hce, h]

/-- On an eligible flag with no matching rule in the sorted scan,
evaluate returns the default value. -/
theorem evaluate_eq_of_not_found (flag : FeatureFlagEntity) (context : EvaluationContext)
    (now : Int) (hce : canEvaluate flag now = true)
    (h : (sortRules flag.rules).find? (fun rule => evaluateRule rule context) = none) :
    evaluate flag context now = flag.defaultValue := by
  simp [evaluate, hce, h]

/-- find? returns the head of the suffix when everything before it fails
the predicate and it passes. -/
theorem find?_first {α : Type} (p : α → Bool) (l₁ : List α) (r : α) (l₂ : List α)
    (h₁ : ∀ x ∈ l₁, p x = false) (h₂ : p r = true) :
    (l₁ ++ r :: l₂).find? p = some r := by
  induction l₁ with
  | nil => simpa using List.find?_cons_of_pos l₂ h₂
  | cons a as ih =>
    have ha : p a = false := h₁ a (List.mem_cons_self a as)
    rw [List.cons_append, List.find?_cons_of_neg _ (by simp [ha])]
    exact ih (fun x hx => h₁ x (List.mem_cons_of_mem a hx))

/-- The sorted rules are in descending priority order. -/
theorem sortRules_sorted (l : List FlagRule) : List.Sorted rulePriorityGe (sortRules l) :=
  List.sorted_insertionSort rulePriorityGe l

/-- Sorting permutes the rules. -/
theorem sortRules_perm (l : List FlagRule) : (sortRules l).Perm l :=
  List.perm_insertionSort rulePriorityGe l

/-- Sorting a two-element rule list keeps the first element first unless
the second has strictly higher priority. -/
theorem sortRules_pair (a b : FlagRule) :
    sortRules [a, b] = if b.priority ≤ a.priority then [a, b] else [b, a] := by
  by_cases h : b.priority ≤ a.priority <;>
    simp [sortRules, List.insertionSort, List.orderedInsert, rulePriorityGe, h]

/-- Stability of the sort: the rules of any fixed priority appear in the
sorted output exactly in their original order. -/
theorem sortRules_stable (l : List FlagRule) (p : Int) :
    (sortRules l).filter (fun r => r.priority == p) = l.filter (fun r => r.priority == p) := by
  have hpw : (l.filter (fun r => r.priority == p)).Pairwise rulePriorityGe := by
    apply List.pairwise_of_forall_mem_list
    intro a ha b hb
    have ha2 : a.priority = p := by simpa using (List.mem_filter.mp ha).2
    have hb2 : b.priority = p := by simpa using (List.mem_filter.mp hb).2
    show b.priority ≤ a.priority
    rw [ha2, hb2]
  have h1 : (l.filter (fun r => r.priority == p)).Sublist (sortRules l) :=
    List.sublist_insertionSort hpw (List.filter_sublist l)
  have h2 := List.Sublist.filter (fun r => r.priority == p) h1
  rw [List.filter_filter] at h2
  simp only [Bool.and_self] at h2
  have h4 : ((sortRules l).filter (fun r => r.priority == p)).length
      = (l.filter (fun r => r.priority == p)).length :=
    (List.Perm.filter _ (sortRules_perm l)).length_eq
  exact (h2.eq_of_length h4.symm).symm

/-- The condition check of validateRules succeeds exactly on the
per-condition acceptance test. -/
theorem checkCondition_ok (c : RawCondition) :
    isOkE (checkCondition c) = condWellFormedB c := by
  cases hb : (c.field == "" || c.operator == "" || c.value.isUndef) <;>
    simp [checkCondition, condWellFormedB, isOkE, hb]

/-- The condition loop of validateRules succeeds exactly when every
condition is accepted. -/
theorem checkConditions_ok (cs : List RawCondition) :
    isOkE (checkConditions cs) = cs.all condWellFormedB := by
  induction cs with
  | nil => rfl
  | cons c cs ih =>
    have h2 := checkCondition_ok c
    unfold checkConditions
    cases hc : checkCondition c with
    | error e =>
      rw [hc] at h2
      simp [List.all_cons, ← h2, isOkE]
    | ok u =>
      rw [hc] at h2
      have h3 : condWellFormedB c = true := by simpa [isOkE] using h2.symm
      rw [List.all_cons, h3, Bool.true_and, ← ih]

/-- The rule check of validateRules succeeds exactly on the per-rule
acceptance test. -/
theorem checkRule_ok (r : RawRule) :
    isOkE (checkRule r) = ruleWellFormedB r := by
  unfold checkRule ruleWellFormedB
  cases hb : (r.id == "" || r.type == "" || !r.value.isBool || !r.priority.isNum)
  · cases hc : r.conditions with
    | none => simp [isOkE]
    | some cs => simp [checkConditions_ok cs]
  · simp [isOkE]

/-- The rule loop of validateRules succeeds exactly when every rule is
accepted. -/
theorem checkRules_ok (rs : List RawRule) :
    isOkE (checkRules rs) = rs.all ruleWellFormedB := by
  induction rs with
  | nil => rfl
  | cons r rs ih =>
    have h2 := checkRule_ok r
    unfold checkRules
    cases hc : checkRule r with
    | error e =>
      rw [hc] at h2
      simp [List.all_cons, ← h2, isOkE]
    | ok u =>
      rw [hc] at h2
      have h3 : ruleWellFormedB r = true := by simpa [isOkE] using h2.symm
      rw [List.all_cons, h3, Bool.true_and, ← ih]

/-- validateRules succeeds exactly when every rule is accepted. -/
theorem validateRules_isOk (rules : List RawRule) :
    isOkE (validateRules rules) = rules.all ruleWellFormedB := by
  have h : isOkE (validateRules rules) = isOkE (checkRules rules) := by
    unfold validateRules
    cases checkRules rules <;> rfl
  rw [h, checkRules_ok]

/-- A successful validateRules returns its input unchanged. -/
theorem validateRules_ok_eq (rules : List RawRule)
    (h : isOkE (validateRules rules) = true) :
    validateRules rules = Except.ok rules := by
  unfold validateRules at h ⊢
  cases hcr : checkRules rules
  · rw [hcr] at h
    simp [isOkE] at h
  · rfl

/-- The boolean condition acceptance test agrees with its declarative
reading. -/
theorem condWellFormedB_iff (c : RawCondition) :
    condWellFormedB c = true ↔ condWellFormed c := by
  simp [condWellFormedB, condWellFormed, and_assoc]

/-- The boolean rule acceptance test agrees with its declarative
reading. -/
theorem ruleWellFormedB_iff (r : RawRule) :
    ruleWellFormedB r = true ↔ ruleWellFormed r := by
  cases hc : r.conditions <;>
    simp [ruleWellFormedB, ruleWellFormed, hc, condWellFormedB_iff, List.all_eq_true,
      and_assoc]

/-! Claim theorems. -/

/-- C1: for every enabled, unexpired flag and every context, evaluate
sorts the rules descending by priority (the sorted list is a descending
permutation of flag.rules), scans them in that order returning the value
of the first rule all of whose conditions hold, returns the default value
when no rule matches, and when exactly two rules with different
priorities both match, the higher-priority value is returned regardless
of their order in flag.rules. -/
theorem c1_evaluate_priority_scan (flag : FeatureFlagEntity) (context : EvaluationContext)
    (now : Int) (hen : flag.enabled = true) (hexp : isExpired flag now = false) :
    List.Sorted rulePriorityGe (sortRules flag.rules)
    ∧ (sortRules flag.rules).Perm flag.rules
    ∧ (∀ l₁ r l₂, sortRules flag.rules = l₁ ++ r :: l₂ →
        (∀ x ∈ l₁, evaluateRule x context = false) → evaluateRule r context = true →
        evaluate flag context now = r.value)
    ∧ ((∀ r ∈ flag.rules, evaluateRule r context = false) →
        evaluate flag context now = flag.defaultValue)
    ∧ (∀ r₁ r₂, (flag.rules = [r₁, r₂] ∨ flag.rules = [r₂, r₁]) →
        evaluateRule r₁ context = true → evaluateRule r₂ context = true →
        r₂.priority < r₁.priority → evaluate flag context now = r₁.value) := by
  have hce := canEvaluate_of_enabled_not_expired flag now hen hexp
  refine ⟨sortRules_sorted flag.rules, sortRules_perm flag.rules, ?_, ?_, ?_⟩
  · intro l₁ r l₂ hsp hall hr
    refine evaluate_eq_of_found flag context now r hce ?_
    rw [hsp]
    exact find?_first _ l₁ r l₂ hall hr
  · intro hnone
    refine evaluate_eq_of_not_found flag context now hce ?_
    rw [List.find?_eq_none]
    intro x hx
    have hx2 : x ∈ flag.rules := (sortRules_perm flag.rules).mem_iff.mp hx
    simp [hnone x hx2]
  · intro r₁ r₂ hcase h₁ h₂ hlt
    refine evaluate_eq_of_found flag context now r₁ hce ?_
    rcases hcase with hc | hc
    · rw [hc, sortRules_pair, if_pos (le_of_lt hlt)]
      exact List.find?_cons_of_pos _ h₁
    · rw [hc, sortRules_pair, if_neg (not_le.mpr hlt)]
      exact List.find?_cons_of_pos _ h₁

/-- C1 witness: on a flag listing the priority 1 rule before the
priority 2 rule, with both matching, evaluation returns the priority 2
value. -/
theorem c1_witness :
    flagTwoRules.enabled = true ∧ isExpired flagTwoRules 5 = false
    ∧ evaluate flagTwoRules ctxU1 5 = ruleHi.value :=
  ⟨rfl, rfl,
    (c1_evaluate_priority_scan flagTwoRules ctxU1 5 rfl rfl).2.2.2.2 ruleHi ruleLo
      (Or.inr rfl) (by decide) (by decide) (by decide)⟩

/-- C2: for every flag that is disabled, or expired relative to the
current clock, and every context, evaluate returns the default value. -/
theorem c2_disabled_or_expired_default (flag : FeatureFlagEntity)
    (context : EvaluationContext) (now : Int)
    (h : flag.enabled = false ∨ ∃ t, flag.expiresAt = some t ∧ t < now) :
    evaluate flag context now = flag.defaultValue := by
  have hce : canEvaluate flag now = false := by
    rcases h with h | ⟨t, ht, hlt⟩
    · simp [canEvaluate, isEnabled, h]
    · simp [canEvaluate, isEnabled, isExpired, ht, hlt]
  simp [evaluate, hce]

/-- C2 witness: a disabled flag and an expired flag, each carrying a rule
that matches the empty context, still evaluate to their default value. -/
theorem c2_witness :
    evaluateRule ruleAlways ctxEmpty = true
    ∧ evaluate flagDisabled ctxEmpty 0 = flagDisabled.defaultValue
    ∧ evaluate flagExpired ctxEmpty 10 = flagExpired.defaultValue :=
  ⟨by decide,
    c2_disabled_or_expired_default flagDisabled ctxEmpty 0 (Or.inl rfl),
    c2_disabled_or_expired_default flagExpired ctxEmpty 10 (Or.inr ⟨5, rfl, by decide⟩)⟩

/-- C7: rule ordering is stable on ties: rules of any fixed priority keep
their original relative order after sorting, and on an enabled, unexpired
flag whose rules are two tied rules that both match, evaluate returns the
value of the rule listed first. -/
theorem c7_stable_ties (flag : FeatureFlagEntity) (context : EvaluationContext)
    (now : Int) (r₁ r₂ : FlagRule)
    (hen : flag.enabled = true) (hexp : isExpired flag now = false)
    (hrules : flag.rules = [r₁, r₂]) (hpri : r₁.priority = r₂.priority)
    (h₁ : evaluateRule r₁ context = true) (_h₂ : evaluateRule r₂ context = true) :
    evaluate flag context now = r₁.value
    ∧ ∀ (l : List FlagRule) (p : Int),
        (sortRules l).filter (fun r => r.priority == p) = l.filter (fun r => r.priority == p) := by
  have hce := canEvaluate_of_enabled_not_expired flag now hen hexp
  constructor
  · refine evaluate_eq_of_found flag context now r₁ hce ?_
    rw [hrules, sortRules_pair, if_pos (le_of_eq hpri.symm)]
    exact List.find?_cons_of_pos _ h₁
  · exact fun l p => sortRules_stable l p

/-- C7 witness: two tied priority 3 rules, both matching; the one listed
first wins. -/
theorem c7_witness : evaluate flagTie ctxEmpty 0 = ruleTieA.value :=
  (c7_stable_ties flagTie ctxEmpty 0 ruleTieA ruleTieB rfl rfl rfl rfl
    (by decide) (by decide)).1

/-- C8: evaluation is deterministic with no hidden state: the result
depends only on the enabled, expiresAt, rules and defaultValue fields of
the flag, the context, and the clock value, so repeated evaluations of
equal inputs at a fixed time agree. -/
theorem c8_deterministic (f₁ f₂ : FeatureFlagEntity) (c₁ c₂ : EvaluationContext)
    (n₁ n₂ : Int)
    (hen : f₁.enabled = f₂.enabled) (hex : f₁.expiresAt = f₂.expiresAt)
    (hr : f₁.rules = f₂.rules) (hd : f₁.defaultValue = f₂.defaultValue)
    (hc : c₁ = c₂) (hn : n₁ = n₂) :
    evaluate f₁ c₁ n₁ = evaluate f₂ c₂ n₂ := by
  subst hc hn
  simp [evaluate, canEvaluate, isEnabled, isExpired, hen, hex, hr, hd]

/-- C8 witness: two flags agreeing on the evaluation-relevant fields but
differing in id, key, name, description, creator and timestamps evaluate
identically; in particular repeated evaluation of one flag agrees. -/
theorem c8_witness :
    evaluate flagTwoRules ctxU1 7 = evaluate flagTwoRulesCopy ctxU1 7
    ∧ evaluate flagTwoRules ctxU1 7 = evaluate flagTwoRules ctxU1 7 :=
  ⟨c8_deterministic flagTwoRules flagTwoRulesCopy ctxU1 ctxU1 7 7 rfl rfl rfl rfl rfl rfl,
    c8_deterministic flagTwoRules flagTwoRules ctxU1 ctxU1 7 7 rfl rfl rfl rfl rfl rfl⟩

/-- Unfolding of evaluateCondition at operator equals. -/
theorem evaluateCondition_equals (f : String) (v : JSValue) (context : EvaluationContext) :
    evaluateCondition ⟨f, ConditionOperator.equals, v⟩ context
      = jsEq (resolveField f context) v := rfl

/-- Unfolding of evaluateCondition at operator not_equals. -/
theorem evaluateCondition_ne (f : String) (v : JSValue) (context : EvaluationContext) :
    evaluateCondition ⟨f, ConditionOperator.not_equals, v⟩ context
      = !jsEq (resolveField f context) v := rfl

/-- Unfolding of evaluateCondition at operator contains. -/
theorem evaluateCondition_contains (f : String) (v : JSValue) (context : EvaluationContext) :
    evaluateCondition ⟨f, ConditionOperator.contains, v⟩ context
      = (match resolveField f context, v with
        | JSValue.str a, JSValue.str b => strIncludes a b
        | _, _ => false) := rfl

/-- Unfolding of evaluateCondition at operator not_contains. -/
theorem evaluateCondition_nc (f : String) (v : JSValue) (context : EvaluationContext) :
    evaluateCondition ⟨f, ConditionOperator.not_contains, v⟩ context
      = (match resolveField f context, v with
        | JSValue.str a, JSValue.str b => !strIncludes a b
        | _, _ => false) := rfl

/-- Unfolding of evaluateCondition at operator greater_than. -/
theorem evaluateCondition_gt (f : String) (v : JSValue) (context : EvaluationContext) :
    evaluateCondition ⟨f, ConditionOperator.greater_than, v⟩ context
      = (match resolveField f context, v with
        | JSValue.num a, JSValue.num b => decide (a > b)
        | _, _ => false) := rfl

/-- Unfolding of evaluateCondition at operator less_than. -/
theorem evaluateCondition_lt (f : String) (v : JSValue) (context : EvaluationContext) :
    evaluateCondition ⟨f, ConditionOperator.less_than, v⟩ context
      = (match resolveField f context, v with
        | JSValue.num a, JSValue.num b => decide (a < b)
        | _, _ => false) := rfl

/-- Unfolding of evaluateCondition at operator in. -/
theorem evaluateCondition_in (f : String) (v : JSValue) (context : EvaluationContext) :
    evaluateCondition ⟨f, ConditionOperator.in_op, v⟩ context
      = (match v with
        | JSValue.arr xs => jsIncludes xs (resolveField f context)
        | _ => false) := rfl

/-- Unfolding of evaluateCondition at operator not_in. -/
theorem evaluateCondition_ni (f : String) (v : JSValue) (context : EvaluationContext) :
    evaluateCondition ⟨f, ConditionOperator.not_in, v⟩ context
      = (match v with
        | JSValue.arr xs => !jsIncludes xs (resolveField f context)
        | _ => false) := rfl

/-- C3 counterexample: on an enabled, unexpired flag whose matching rule
value equals the default value, the use case reports reason default even
though a rule matched, contradicting the claim that a rule match always
yields reason rule_match. -/
theorem c3_counterexample :
    canEvaluate flagDefaultTrue 0 = true
    ∧ flagDefaultTrue.rules = [ruleAlways]
    ∧ evaluateRule ruleAlways ctxEmpty = true
    ∧ ruleAlways.value = flagDefaultTrue.defaultValue
    ∧ (evaluateFeatureFlagUseCase flagDefaultTrue none none 0).reason = "default" :=
  ⟨rfl, rfl, rfl, rfl, rfl⟩

/-- C3 amended: for every enabled, unexpired flag the use case returns
the evaluation result, which is the first matching rule value in sorted
order; the reason is rule_match exactly when the result differs from the
default value, and default exactly when it equals it — in particular a
matching rule whose value equals the default is reported as default. -/
theorem c3_reason_from_default_eq (flag : FeatureFlagEntity) (userId : Option String)
    (attrs : Option (List (String × JSValue))) (now : Int)
    (hen : flag.enabled = true) (hexp : isExpired flag now = false) :
    (evaluateFeatureFlagUseCase flag userId attrs now).value
      = evaluate flag ⟨userId, none, none, attrs⟩ now
    ∧ (∀ l₁ r l₂, sortRules flag.rules = l₁ ++ r :: l₂ →
        (∀ x ∈ l₁, evaluateRule x ⟨userId, none, none, attrs⟩ = false) →
        evaluateRule r ⟨userId, none, none, attrs⟩ = true →
        (evaluateFeatureFlagUseCase flag userId attrs now).value = r.value)
    ∧ ((evaluateFeatureFlagUseCase flag userId attrs now).reason = "rule_match"
        ↔ evaluate flag ⟨userId, none, none, attrs⟩ now ≠ flag.defaultValue)
    ∧ ((evaluateFeatureFlagUseCase flag userId attrs now).reason = "default"
        ↔ evaluate flag ⟨userId, none, none, attrs⟩ now = flag.defaultValue) := by
  have hce := canEvaluate_of_enabled_not_expired flag now hen hexp
  have hreason : (evaluateFeatureFlagUseCase flag userId attrs now).reason
      = if evaluate flag ⟨userId, none, none, attrs⟩ now == flag.defaultValue
          then "default" else "rule_match" := rfl
  refine ⟨rfl, ?_, ?_, ?_⟩
  · intro l₁ r l₂ hsp hall hr
    refine evaluate_eq_of_found flag ⟨userId, none, none, attrs⟩ now r hce ?_
    rw [hsp]
    exact find?_first _ l₁ r l₂ hall hr
  · rw [hreason]
    cases hb : (evaluate flag ⟨userId, none, none, attrs⟩ now == flag.defaultValue)
    · have hne := beq_eq_false_iff_ne.mp hb
      simp [hne]
    · have heq := beq_iff_eq.mp hb
      simp [heq]
  · rw [hreason]
    cases hb : (evaluate flag ⟨userId, none, none, attrs⟩ now == flag.defaultValue)
    · have hne := beq_eq_false_iff_ne.mp hb
      simp [hne]
    · have heq := beq_iff_eq.mp hb
      simp [heq]

/-- C3 witness: on a flag whose matching rule value differs from the
default, the use case reports reason rule_match. -/
theorem c3_witness : (evaluateFeatureFlagUseCase flagRuleOn none none 0).reason = "rule_match" :=
  (c3_reason_from_default_eq flagRuleOn none none 0 rfl rfl).2.2.1.mpr (by decide)

/-- C4: condition evaluation is total (always yields a boolean), and
every type mismatch — contains or not_contains where either side is not a
string, greater_than or less_than where either side is not a number, in
or not_in where the condition value is not an array — evaluates to false
rather than raising. -/
theorem c4_condition_totality (f : String) (op : ConditionOperator) (v : JSValue)
    (context : EvaluationContext) :
    (evaluateCondition ⟨f, op, v⟩ context = true ∨ evaluateCondition ⟨f, op, v⟩ context = false)
    ∧ ((op = ConditionOperator.contains ∨ op = ConditionOperator.not_contains) →
        ((resolveField f context).isStr = false ∨ v.isStr = false) →
        evaluateCondition ⟨f, op, v⟩ context = false)
    ∧ ((op = ConditionOperator.greater_than ∨ op = ConditionOperator.less_than) →
        ((resolveField f context).isNum = false ∨ v.isNum = false) →
        evaluateCondition ⟨f, op, v⟩ context = false)
    ∧ ((op = ConditionOperator.in_op ∨ op = ConditionOperator.not_in) →
        v.isArr = false → evaluateCondition ⟨f, op, v⟩ context = false) := by
  refine ⟨?_, ?_, ?_, ?_⟩
  · cases h : evaluateCondition ⟨f, op, v⟩ context
    · exact Or.inr rfl
    · exact Or.inl rfl
  · rintro (rfl | rfl) hm
    · rw [evaluateCondition_contains]
      cases hcv : resolveField f context <;> cases v <;> simp_all [JSValue.isStr]
    · rw [evaluateCondition_nc]
      cases hcv : resolveField f context <;> cases v <;> simp_all [JSValue.isStr]
  · rintro (rfl | rfl) hm
    · rw [evaluateCondition_gt]
      cases hcv : resolveField f context <;> cases v <;> simp_all [JSValue.isNum]
    · rw [evaluateCondition_lt]
      cases hcv : resolveField f context <;> cases v <;> simp_all [JSValue.isNum]
  · rintro (rfl | rfl) hm
    · rw [evaluateCondition_in]
      cases v <;> simp_all [JSValue.isArr]
    · rw [evaluateCondition_ni]
      cases v <;> simp_all [JSValue.isArr]

/-- C4 witness: concrete mismatches of every kind evaluate to false. -/
theorem c4_witness :
    evaluateCondition condGtStr ctxEmpty = false
    ∧ evaluateCondition condContainsNum ctxU1 = false
    ∧ evaluateCondition condInScalar ctxU1 = false :=
  ⟨(c4_condition_totality "age" ConditionOperator.greater_than (JSValue.str "x")
      ctxEmpty).2.2.1 (Or.inl rfl) (Or.inr (by decide)),
    (c4_condition_totality "userEmail" ConditionOperator.contains (JSValue.num 3)
      ctxU1).2.1 (Or.inl rfl) (Or.inr (by decide)),
    (c4_condition_totality "userId" ConditionOperator.in_op (JSValue.str "u1")
      ctxU1).2.2.2 (Or.inl rfl) (by decide)⟩

/-- C9: a rule with an empty conditions collection matches every context;
if it heads the sorted scan of an enabled, unexpired flag, evaluate
returns its value for every context; and a raw rule with an empty
conditions array and acceptable remaining fields passes validateRules. -/
theorem c9_empty_conditions (flag : FeatureFlagEntity) (context : EvaluationContext)
    (now : Int) (r : FlagRule) (rest : List FlagRule)
    (hen : flag.enabled = true) (hexp : isExpired flag now = false)
    (hhead : sortRules flag.rules = r :: rest) (hconds : r.conditions = [])
    (rr : RawRule) (hid : rr.id ≠ "") (hty : rr.type ≠ "")
    (hval : rr.value.isBool = true) (hpri : rr.priority.isNum = true)
    (hcs : rr.conditions = some []) :
    evaluateRule r context = true
    ∧ evaluate flag context now = r.value
    ∧ validateRules [rr] = Except.ok [rr] := by
  have hce := canEvaluate_of_enabled_not_expired flag now hen hexp
  have hrule : evaluateRule r context = true := by simp [evaluateRule, hconds]
  refine ⟨hrule, ?_, ?_⟩
  · refine evaluate_eq_of_found flag context now r hce ?_
    rw [hhead]
    exact List.find?_cons_of_pos _ hrule
  · apply validateRules_ok_eq
    rw [validateRules_isOk]
    simp [ruleWellFormedB, hcs, hval, hpri,
      beq_eq_false_iff_ne.mpr hid, beq_eq_false_iff_ne.mpr hty]

/-- C9 witness: the always-matching rule heads the scan of flagRuleOn and
its value is returned on the empty context; the raw rule with an empty
conditions array passes validateRules. -/
theorem c9_witness :
    evaluate flagRuleOn ctxEmpty 0 = ruleAlways.value
    ∧ validateRules [rawRuleEmptyConds] = Except.ok [rawRuleEmptyConds] :=
  ⟨(c9_empty_conditions flagRuleOn ctxEmpty 0 ruleAlways [] rfl rfl rfl rfl
      rawRuleEmptyConds (by decide) (by decide) rfl rfl rfl).2.1,
    (c9_empty_conditions flagRuleOn ctxEmpty 0 ruleAlways [] rfl rfl rfl rfl
      rawRuleEmptyConds (by decide) (by decide) rfl rfl rfl).2.2⟩

/-- C10: when the condition field resolves to no value, not_equals with a
defined operand holds, not_in with an array not containing the undefined
marker holds, while not_contains fails its string type check and is
false. -/
theorem c10_absent_field_negative_ops (f : String) (op : ConditionOperator) (v : JSValue)
    (context : EvaluationContext)
    (habs : resolveField f context = JSValue.undef) :
    (op = ConditionOperator.not_equals → v.isUndef = false →
      evaluateCondition ⟨f, op, v⟩ context = true)
    ∧ (∀ xs, op = ConditionOperator.not_in → v = JSValue.arr xs →
      jsIncludes xs JSValue.undef = false → evaluateCondition ⟨f, op, v⟩ context = true)
    ∧ (op = ConditionOperator.not_contains → evaluateCondition ⟨f, op, v⟩ context = false) := by
  refine ⟨?_, ?_, ?_⟩
  · rintro rfl hv
    rw [evaluateCondition_ne, habs]
    cases v <;> simp_all [jsEq, JSValue.isUndef]
  · rintro xs rfl rfl hni
    rw [evaluateCondition_ni, habs]
    simp [hni]
  · rintro rfl
    rw [evaluateCondition_nc, habs]

/-- C10 witness: with dept absent from the context, not_equals and not_in
conditions on dept hold while a not_contains condition does not. -/
theorem c10_witness :
    evaluateCondition condAbsentNe ctxEmpty = true
    ∧ evaluateCondition condAbsentNotIn ctxEmpty = true
    ∧ evaluateCondition condAbsentNc ctxEmpty = false :=
  ⟨(c10_absent_field_negative_ops "dept" ConditionOperator.not_equals (JSValue.str "x")
      ctxEmpty rfl).1 rfl (by decide),
    (c10_absent_field_negative_ops "dept" ConditionOperator.not_in
      (JSValue.arr [JSValue.str "a"]) ctxEmpty rfl).2.1 [JSValue.str "a"] rfl rfl (by decide),
    (c10_absent_field_negative_ops "dept" ConditionOperator.not_contains (JSValue.str "a")
      ctxEmpty rfl).2.2 rfl⟩

/-- C5 counterexample: a rule whose conditions array is empty, with every
other field acceptable, is accepted by validateRules, contradicting the
claim that such a rule is rejected. -/
theorem c5_counterexample :
    rawRuleEmptyConds.conditions = some []
    ∧ validateRules [rawRuleEmptyConds] = Except.ok [rawRuleEmptyConds] :=
  ⟨rfl, rfl⟩

/-- C5 amended: validateRules succeeds exactly when every rule has a
truthy id and type, boolean value, numeric priority, a conditions member
that is an array (possibly empty), and every condition has a truthy field
and operator and a defined value; on success it returns the rules. -/
theorem c5_validateRules_characterization (rules : List RawRule) :
    (isOkE (validateRules rules) = true ↔ ∀ r ∈ rules, ruleWellFormed r)
    ∧ (isOkE (validateRules rules) = true → validateRules rules = Except.ok rules) := by
  constructor
  · rw [validateRules_isOk, List.all_eq_true]
    constructor
    · intro h r hr
      exact (ruleWellFormedB_iff r).mp (h r hr)
    · intro h r hr
      exact (ruleWellFormedB_iff r).mpr (h r hr)
  · exact validateRules_ok_eq rules

/-- C5 witness: a collection holding the empty-conditions rule and a
fully populated rule is accepted. -/
theorem c5_witness : isOkE (validateRules [rawRuleEmptyConds, rawRuleFull]) = true := by
  refine (c5_validateRules_characterization [rawRuleEmptyConds, rawRuleFull]).1.mpr ?_
  intro r hr
  simp only [List.mem_cons, List.not_mem_nil, or_false] at hr
  rcases hr with rfl | rfl
  · exact ⟨by decide, by decide, rfl, rfl, [], rfl, by simp⟩
  · refine ⟨by decide, by decide, rfl, rfl, _, rfl, ?_⟩
    intro c hc
    simp only [List.mem_cons, List.not_mem_nil, or_false] at hc
    subst hc
    exact ⟨by decide, by decide, rfl⟩

/-- C6: updating a valid flag with the empty string as the new key skips
validateKey (the truthiness guard treats the empty string as absent while
the nullish coalescing treats it as present) and produces an entity whose
key is empty, which validateKey rejects. -/
theorem c6_update_empty_key_bug :
    updateFeatureFlagEntity flagTwoRules updEmptyKey 99
      = Except.ok (createFeatureFlagEntity "f1" "" "Two Rules" "" true false
          [ruleLo, ruleHi] "creator" 0 99 none)
    ∧ isOkE (validateKey "") = false :=
  ⟨rfl, rfl⟩

end LD
